import Mathlib

/-!
A shallow embedding of the WebSheet utility (src/index.js): a browser-side
class that fetches rows from a spreadsheet through the external `sheetrock`
collaborator and renders them through a chain of filters and a sort
selector.

Modelling conventions:
* A JS string is a Lean `String`; the JS string primitives used by the
  source (`trim`, `toLowerCase`, `split`, `includes`, the default relational
  comparison) are re-implemented below by structural recursion over the
  character list so that concrete instances evaluate inside the kernel.
* A row (the JS object `r` of cell values) is an association list from
  column name to cell string; `getCell` returns `none` for an absent
  property, which models JS `undefined`.
* A JS `TypeError` raised by dereferencing `undefined` (for example
  `undefined.split(...)`) is modelled by an `Option`-valued result whose
  `none` means "this call threw".
* DOM controls are modelled by their observable state: a current `value`
  and the list of option values, in document order.
-/

/-- A spreadsheet row: a JS object mapping column names to cell strings,
represented as an association list. -/
abbrev Row := List (String × String)

/-- JS property access `r[k]` on a row: `none` models `undefined` (the
property is absent). -/
def getCell (r : Row) (k : String) : Option String :=
  (r.find? (fun cell => cell.1 == k)).map (fun cell => cell.2)

/-- Lexicographic comparison of character lists by code point.  This models
the JS default relational comparison of strings (UTF-16 code-unit order,
which agrees with code-point order on the basic multilingual plane). -/
def charListLe : List Char → List Char → Bool
  | [], _ => true
  | _ :: _, [] => false
  | a :: as, b :: bs =>
    if a.toNat < b.toNat then true
    else if b.toNat < a.toNat then false
    else charListLe as bs

/-- The string order used by the JS default `Array.prototype.sort()`
comparator on the option lists. -/
def jsStrLe (a b : String) : Prop := charListLe a.data b.data = true

instance : DecidableRel jsStrLe := fun _ _ => instDecidableEqBool _ _

/-- JS `String.prototype.trim`: strip whitespace from both ends. -/
def jsTrim (s : String) : String :=
  ⟨((s.data.dropWhile Char.isWhitespace).reverse.dropWhile Char.isWhitespace).reverse⟩

/-- JS `String.prototype.toLowerCase` (ASCII-level model, matching the
`Char.toLower` mapping). -/
def jsToLower (s : String) : String := ⟨s.data.map Char.toLower⟩

/-- JS `String.prototype.includes`: substring containment. -/
def jsIncludes (s pat : String) : Bool :=
  s.data.tails.any (fun t => pat.data.isPrefixOf t)

/-- Worker for `jsSplit`: scan the character list, cutting a segment each
time the (nonempty) separator occurs.  The `fuel` argument only makes the
recursion structural; every step consumes at least one character, so
`length + 1` fuel is never exhausted. -/
def splitGo (sep : List Char) : Nat → List Char → List Char → List (List Char)
  | 0, rest, cur => [cur.reverse ++ rest]
  | _ + 1, [], cur => [cur.reverse]
  | fuel + 1, c :: rest, cur =>
    if sep.isPrefixOf (c :: rest) then
      cur.reverse :: splitGo sep fuel ((c :: rest).drop sep.length) []
    else
      splitGo sep fuel rest (c :: cur)

/-- JS `String.prototype.split` with a string separator.  An empty
separator splits into single characters, as in JS. -/
def jsSplit (s sep : String) : List String :=
  if sep.data.isEmpty then s.data.map (fun c => ⟨[c]⟩)
  else (splitGo sep.data (s.data.length + 1) s.data []).map (fun l => ⟨l⟩)

/-- JS `Set.prototype.add` on a set represented by its insertion-ordered
element list: append the value when it is not yet present. -/
def setAdd (s : List String) (v : String) : List String :=
  if v ∈ s then s else s ++ [v]

/-- A sort option registered through `setSortSelect`: the `webSheetSort`
typedef `{label, compare}`.  The comparator returns a JS number, modelled
as an integer. -/
structure SortOption where
  label : String
  compare : Row → Row → Int

/-- The modelled state of an HTML input or select element: its current
`value` and the `value` attributes of its option children, in order.  The
display text of an option (for example the "Not specified" label rendered
for an empty value) is presentation-only and not modelled. -/
structure SelectElement where
  value : String
  options : List String
  deriving DecidableEq

/-- The `this.sorting` record assigned by `setSortSelect`. -/
structure Sorting where
  element : SelectElement
  options : List SortOption

/-- The `webSheetInput` typedef: a bound input registered by
`selectColumnFilter` with its column name and optional delimiter. -/
structure WebSheetInput where
  element : SelectElement
  column : String
  deliminator : Option String

/-- The `webSheetOptions` configuration object.  Each field is `none` when
the caller omitted it (JS `undefined`; the constructor's `== null` check
also catches `null`).  The template collaborator is a render function
`Row → String` (compiling a string template is done by the external
Handlebars collaborator and is not modelled); the output surface and the
error callback are external collaborators modelled by presence only. -/
structure WebSheetOptions where
  sheet : Option String
  template : Option (Row → String)
  output : Option Unit
  query : Option String
  labels : Option (List String)
  errorCallback : Option (String → Unit)

/-- The state of a `WebSheet` instance.  `rows` and `sorting` are left
undefined by the JS constructor until `fetch` / `setSortSelect` assign
them; the empty list and `none` model that unset state. -/
structure WebSheet where
  options : WebSheetOptions
  template : Row → String
  filters : List (List Row → List Row)
  inputs : List WebSheetInput
  rows : List Row
  sorting : Option Sorting

/-- The `WebSheet` constructor: validate the required options in source
order (sheet, template, query, labels; `output` has no check), then
initialise `filters` and `inputs` to empty lists. -/
def webSheetConstructor (o : WebSheetOptions) : Except String WebSheet :=
  if o.sheet.isNone then .error "WebSheet: Provide a Google Sheet URL"
  else if o.template.isNone then .error "WebSheet: Provide a Handlebars template"
  else if o.query.isNone then .error "WebSheet: Provide a query"
  else if o.labels.isNone then
    .error "WebSheet: Provide a list of labels for your selected rows"
  else
    .ok { options := o
          template := o.template.getD (fun _ => "")
          filters := []
          inputs := []
          rows := []
          sorting := none }

/-- A JS value passed where a filter callback is expected; `typeof v`
evaluates to the string `'function'` exactly for the `func` constructor. -/
inductive JSArgValue where
  | func (f : List Row → List Row)
  | str (s : String)
  | num (n : Int)
  | nullVal
  | undefinedVal

/-- The JS test `typeof v === 'function'` for a `JSArgValue`. -/
def typeofFunction : JSArgValue → Bool
  | .func _ => true
  | _ => false

/-- The `createFilter` method: returns the thrown error (if any) paired with the
instance state after the call.  The JS `throw` happens before the `push`,
so on the error path the instance is returned untouched. -/
def createFilter (ws : WebSheet) (filterFunction : JSArgValue) :
    Option String × WebSheet :=
  match filterFunction with
  | .func f => (none, { ws with filters := ws.filters ++ [f] })
  | _ => (some "WebSheet(addSearchFilter): Provide a valid HTML text input", ws)

/-- The row load in `sheetrockCallback`:
`response.rows.map(r => r.cells).filter(r => this.options.labels.every(l => l !== r[l]))`.
The argument is the list of `cells` objects delivered by the fetch
collaborator; a row is kept when every declared label differs from the
value stored under that label's key (`l !== r[l]`, true when the key is
absent). -/
def loadRows (labels : List String) (raw : List Row) : List Row :=
  raw.filter (fun r => labels.all (fun l => !(some l == getCell r l)))

/-- JS `Array.prototype.filter` with a predicate that can throw (`none`
models the thrown `TypeError`): the rows are tested in order and the first
throwing row aborts the whole call. -/
def jsFilter (p : Row → Option Bool) : List Row → Option (List Row)
  | [] => some []
  | r :: rs =>
    match p r with
    | none => none
    | some b =>
      match jsFilter p rs with
      | none => none
      | some rest => some (if b then r :: rest else rest)

/-- One row's test inside the filter closure installed by
`selectColumnFilter`.  With no separator: `r[column] === selectedValue`
(false for a missing cell, as JS `undefined === string` is false).  With a
separator:
`row[column].split(separator).findIndex(v => v.trim() === selectedValue) !== -1`,
which throws (`none`) when the cell is missing, because `split` is called
on `undefined`. -/
def selectColumnPred (column : String) (separator : Option String)
    (selectedValue : String) (r : Row) : Option Bool :=
  match separator with
  | none => some (getCell r column == some selectedValue)
  | some sep =>
    match getCell r column with
    | none => none
    | some cell => some ((jsSplit cell sep).any (fun v => jsTrim v == selectedValue))

/-- The filter closure created by `selectColumnFilter`, evaluated when the
bound control currently shows `elementValue`: the sentinel `"Any"` passes
all rows through, otherwise the rows are filtered by `selectColumnPred`. -/
def selectColumnFilterFn (elementValue column : String) (separator : Option String)
    (rows : List Row) : Option (List Row) :=
  if elementValue == "Any" then some rows
  else jsFilter (selectColumnPred column separator elementValue) rows

/-- One row's test inside the filter closure installed by `searchFilter`:
`columns.findIndex(col => r[col].toLowerCase().includes(searchString)) !== -1`.
`findIndex` visits the columns in order and stops at the first hit, so a
missing cell (`toLowerCase` called on `undefined`, modelled by `none`)
only throws when it is actually reached. -/
def searchPred (searchString : String) (columns : List String) (r : Row) :
    Option Bool :=
  match columns with
  | [] => some false
  | col :: rest =>
    match getCell r col with
    | none => none
    | some cell =>
      if jsIncludes (jsToLower cell) searchString then some true
      else searchPred searchString rest r

/-- The filter closure created by `searchFilter`, evaluated when the bound
control currently holds `elementValue`: trim and lowercase the control
value, pass all rows through when it is empty, otherwise filter by
`searchPred`. -/
def searchFilterFn (elementValue : String) (columns : List String)
    (rows : List Row) : Option (List Row) :=
  let searchString := jsToLower (jsTrim elementValue)
  if searchString == "" then some rows
  else jsFilter (searchPred searchString columns) rows

/-- The `for (const filter of this.filters)` loop in the `filteredRows`
getter: thread the row list through every registered filter in
registration order. -/
def runFilters : List (List Row → List Row) → List Row → List Row
  | [], rows => rows
  | f :: fs, rows => runFilters fs (f rows)

/-- JS `Array.prototype.sort` with a numeric comparator: a stable sort
that places `a` no later than `b` whenever `compare a b ≤ 0`, modelled by
Mathlib's stable insertion sort. -/
def jsSortBy (compare : Row → Row → Int) (l : List Row) : List Row :=
  List.insertionSort (fun a b => compare a b ≤ 0) l

/-- The `filteredRows` getter: fold the registered filters over the loaded
rows in registration order; then, when a sort select is configured, look
up the option whose label equals the control's current value and sort a
copy (`[...filteredRows]`) with its comparator.  When no label matches,
`find` yields `undefined` and the property access `sortFunc.compare`
throws a `TypeError`, modelled by `none`. -/
def filteredRows (ws : WebSheet) : Option (List Row) :=
  let fr := runFilters ws.filters ws.rows
  match ws.sorting with
  | none => some fr
  | some sorting =>
    match sorting.options.find? (fun v => v.label == sorting.element.value) with
    | none => none
    | some sortFunc => some (jsSortBy sortFunc.compare fr)

/-- The option-collection loop of `populateInputs` for one bound input:
walk the rows, adding the cell's value (no delimiter) or every trimmed
split segment (with a delimiter) to the `Set`, kept here as its
insertion-ordered element list.  When a row's cell is missing the JS code
leaves the fragment modelled here (it puts `undefined` into the set
without a delimiter, and throws with one), so that case is mapped to
`none` and the theorems assume every row carries the column. -/
def collectOptionValues (column : String) (deliminator : Option String) :
    List Row → List String → Option (List String)
  | [], acc => some acc
  | r :: rs, acc =>
    match getCell r column with
    | none => none
    | some cell =>
      match deliminator with
      | none => collectOptionValues column deliminator rs (setAdd acc cell)
      | some d =>
        collectOptionValues column deliminator rs
          ((jsSplit cell d).foldl (fun a v => setAdd a (jsTrim v)) acc)

/-- One iteration of `populateInputs` for a single registered input:
capture the current selection (treating a control with zero options as
holding `"Any"`), collect the distinct values, sort them with the default
string order, prepend the `"Any"` sentinel, rebuild the option list from
scratch and restore the captured selection exactly when it is still among
the new option values (`find(o => o.value === selectionBackup)`), falling
back to `"Any"` otherwise. -/
def populateInput (rows : List Row) (inp : WebSheetInput) : Option SelectElement :=
  let selectionBackup :=
    if inp.element.options.length = 0 then "Any" else inp.element.value
  match collectOptionValues inp.column inp.deliminator rows [] with
  | none => none
  | some values =>
    let optArray := "Any" :: List.insertionSort jsStrLe values
    some { value := if selectionBackup ∈ optArray then selectionBackup else "Any"
           options := optArray }

/-- Specification-side description (following the spec's words, for the
refinement statement about `populateInput`) of the values one cell
contributes to an input's option list: the whole cell without a delimiter,
every trimmed split segment with one. -/
def specDerivedValues (deliminator : Option String) (cell : String) : List String :=
  match deliminator with
  | none => [cell]
  | some d => (jsSplit cell d).map jsTrim

/-- Whether an `Except` result is the success case; used to state that a
constructor call did not throw. -/
def exceptIsOk (e : Except String WebSheet) : Bool :=
  match e with
  | .ok _ => true
  | .error _ => false

/-- A fully populated configuration object, used as the base state of the
concrete instances appearing in witnesses. -/
def sampleOptions : WebSheetOptions :=
  { sheet := some "https://docs.google.com/spreadsheets/d/1"
    template := some (fun _ => "")
    output := some ()
    query := some "select A,B"
    labels := some ["name", "dept"]
    errorCallback := none }

/-- A concrete constructed instance used by witnesses. -/
def sampleWebSheet : WebSheet :=
  { options := sampleOptions
    template := fun _ => ""
    filters := []
    inputs := []
    rows := [[("name", "A"), ("dept", "D1")], [("name", "B"), ("dept", "D2")]]
    sorting := none }

/-- A concrete comparator, sorting rows by the code-point order of their
"name" cell (an absent cell counts as the empty string). -/
def demoCompare : Row → Row → Int := fun a b =>
  if jsStrLe ((getCell a "name").getD "") ((getCell b "name").getD "") then
    if jsStrLe ((getCell b "name").getD "") ((getCell a "name").getD "") then 0 else -1
  else 1

/-- A sort option labelled "Name" using `demoCompare`. -/
def demoSortOption : SortOption := { label := "Name", compare := demoCompare }

/-- An instance whose sort control holds a value that matches no
registered sort option label. -/
def c2WebSheet : WebSheet :=
  { sampleWebSheet with
    sorting := some { element := { value := "Nonexistent", options := ["Name"] }
                      options := [demoSortOption] } }

/-- An instance with one registered filter and no sort select. -/
def c6WebSheet : WebSheet :=
  { sampleWebSheet with
    filters := [fun rows => rows.filter (fun r => getCell r "dept" == some "D1")] }

/-- An instance whose sort control's current value matches the registered
option's label. -/
def c8WebSheet : WebSheet :=
  { sampleWebSheet with
    sorting := some { element := { value := "Name", options := ["Name"] }
                      options := [demoSortOption] } }

/-- Rows whose "c" column carries the values x, y, x. -/
def c9Rows : List Row := [[("c", "x")], [("c", "y")], [("c", "x")]]

/-- A bound input on column "c" whose control currently selects "y". -/
def c9InputY : WebSheetInput :=
  { element := { value := "y", options := ["Any", "x", "y"] }
    column := "c"
    deliminator := none }

/-- A bound input on column "c" whose control currently selects "z", a
value that the fresh data no longer provides. -/
def c9InputZ : WebSheetInput :=
  { element := { value := "z", options := ["Any", "x", "y", "z"] }
    column := "c"
    deliminator := none }

/-- Collecting a list of values into a set list, used to reason about the
`foldl` in `collectOptionValues`. -/
def addAll (acc : List String) (vs : List String) : List String :=
  vs.foldl setAdd acc

theorem charListLe_total : ∀ as bs : List Char,
    charListLe as bs = true ∨ charListLe bs as = true
  | [], _ => Or.inl rfl
  | _ :: _, [] => Or.inr rfl
  | a :: as, b :: bs => by
    by_cases hab : a.toNat < b.toNat
    · left
      simp [charListLe, hab]
    · by_cases hba : b.toNat < a.toNat
      · right
        simp [charListLe, hba]
      · rcases charListLe_total as bs with h | h
        · left
          simp [charListLe, hab, hba, h]
        · right
          simp [charListLe, hab, hba, h]

theorem charListLe_trans : ∀ as bs cs : List Char,
    charListLe as bs = true → charListLe bs cs = true → charListLe as cs = true
  | [], _, _, _, _ => rfl
  | _ :: _, [], _, h₁, _ => by simp [charListLe] at h₁
  | _ :: _, _ :: _, [], _, h₂ => by simp [charListLe] at h₂
  | a :: as, b :: bs, c :: cs, h₁, h₂ => by
    simp only [charListLe] at h₁ h₂ ⊢
    have h₁' : a.toNat < b.toNat ∨ (a.toNat = b.toNat ∧ charListLe as bs = true) := by
      by_cases hab : a.toNat < b.toNat
      · exact Or.inl hab
      · by_cases hba : b.toNat < a.toNat
        · simp [hab, hba] at h₁
        · exact Or.inr ⟨by omega, by simpa [hab, hba] using h₁⟩
    have h₂' : b.toNat < c.toNat ∨ (b.toNat = c.toNat ∧ charListLe bs cs = true) := by
      by_cases hbc : b.toNat < c.toNat
      · exact Or.inl hbc
      · by_cases hcb : c.toNat < b.toNat
        · simp [hbc, hcb] at h₂
        · exact Or.inr ⟨by omega, by simpa [hbc, hcb] using h₂⟩
    rcases h₁' with hab | ⟨hab, hr₁⟩ <;> rcases h₂' with hbc | ⟨hbc, hr₂⟩
    · simp [show a.toNat < c.toNat by omega]
    · simp [show a.toNat < c.toNat by omega]
    · simp [show a.toNat < c.toNat by omega]
    · simp [show ¬ a.toNat < c.toNat by omega, show ¬ c.toNat < a.toNat by omega,
        charListLe_trans as bs cs hr₁ hr₂]

instance : IsTotal String jsStrLe :=
  ⟨fun a b => charListLe_total a.data b.data⟩

instance : IsTrans String jsStrLe :=
  ⟨fun a b c => charListLe_trans a.data b.data c.data⟩

theorem mem_setAdd {s : List String} {v x : String} :
    x ∈ setAdd s v ↔ x ∈ s ∨ x = v := by
  unfold setAdd
  split_ifs with h
  · exact ⟨Or.inl, fun hx => hx.elim id (fun hv => hv ▸ h)⟩
  · simp [List.mem_append]

theorem nodup_setAdd {s : List String} (v : String) (h : s.Nodup) :
    (setAdd s v).Nodup := by
  unfold setAdd
  split_ifs with hv
  · exact h
  · simpa [List.nodup_append] using ⟨h, hv⟩

theorem mem_addAll {x : String} : ∀ (vs : List String) (acc : List String),
    x ∈ addAll acc vs ↔ x ∈ acc ∨ x ∈ vs
  | [], acc => by simp [addAll]
  | v :: vs, acc => by
    rw [show addAll acc (v :: vs) = addAll (setAdd acc v) vs from rfl,
      mem_addAll vs (setAdd acc v)]
    simp only [mem_setAdd, List.mem_cons]
    tauto

theorem nodup_addAll : ∀ (vs : List String) (acc : List String), acc.Nodup →
    (addAll acc vs).Nodup
  | [], _, h => h
  | v :: vs, acc, h =>
    nodup_addAll vs (setAdd acc v) (nodup_setAdd v h)

theorem jsFilter_eq_filter (p : Row → Option Bool) (q : Row → Bool) :
    ∀ rows : List Row, (∀ r ∈ rows, p r = some (q r)) →
      jsFilter p rows = some (rows.filter q)
  | [], _ => rfl
  | r :: rs, h => by
    have hr : p r = some (q r) := h r (List.mem_cons_self r rs)
    have hrest := jsFilter_eq_filter p q rs (fun x hx => h x (List.mem_cons_of_mem r hx))
    simp only [jsFilter, hr, hrest, List.filter_cons]

theorem runFilters_eq_foldl : ∀ (fs : List (List Row → List Row)) (rows : List Row),
    runFilters fs rows = fs.foldl (fun acc f => f acc) rows
  | [], _ => rfl
  | f :: fs, rows => by
    simp only [runFilters, List.foldl_cons]
    exact runFilters_eq_foldl fs (f rows)

theorem collectOptionValues_spec (column : String) (deliminator : Option String) :
    ∀ (rows : List Row) (acc : List String),
      (∀ r ∈ rows, (getCell r column).isSome) →
      ∃ vals, collectOptionValues column deliminator rows acc = some vals ∧
        (acc.Nodup → vals.Nodup) ∧
        (∀ x, x ∈ vals ↔ x ∈ acc ∨ ∃ r ∈ rows, ∃ cell,
          getCell r column = some cell ∧ x ∈ specDerivedValues deliminator cell)
  | [], acc, _ => by
    refine ⟨acc, rfl, fun h => h, fun x => ?_⟩
    simp
  | r :: rs, acc, h => by
    obtain ⟨cell, hcell⟩ := Option.isSome_iff_exists.mp (h r (List.mem_cons_self r rs))
    have hrs : ∀ x ∈ rs, (getCell x column).isSome :=
      fun x hx => h x (List.mem_cons_of_mem r hx)
    have hacc : ∀ acc', collectOptionValues column deliminator (r :: rs) acc' =
        collectOptionValues column deliminator rs
          (addAll acc' (specDerivedValues deliminator cell)) := by
      intro acc'
      cases deliminator with
      | none =>
        simp [collectOptionValues, hcell, specDerivedValues, addAll, List.foldl]
      | some d =>
        simp [collectOptionValues, hcell, specDerivedValues, addAll, List.foldl_map]
    obtain ⟨vals, hv, hnd, hmem⟩ :=
      collectOptionValues_spec column deliminator rs
        (addAll acc (specDerivedValues deliminator cell)) hrs
    refine ⟨vals, (hacc acc).trans hv, fun hn => hnd (nodup_addAll _ _ hn), fun x => ?_⟩
    rw [hmem x, mem_addAll]
    constructor
    · rintro ((hx | hx) | ⟨r', hr', hx⟩)
      · exact Or.inl hx
      · exact Or.inr ⟨r, List.mem_cons_self r rs, cell, hcell, hx⟩
      · exact Or.inr ⟨r', List.mem_cons_of_mem r hr', hx⟩
    · rintro (hx | ⟨r', hr', cell', hcell', hx⟩)
      · exact Or.inl (Or.inl hx)
      · rcases List.mem_cons.mp hr' with rfl | hr'
        · rw [hcell] at hcell'
          exact Or.inl (Or.inr (Option.some_inj.mp hcell' ▸ hx))
        · exact Or.inr ⟨r', hr', cell', hcell', hx⟩

/-- C1 (amended): a raw row is excluded by the load step if and only if
SOME declared label's stored value equals the label itself; equivalently,
a row survives `loadRows` exactly when it came from the raw response and
every declared label differs from the value stored under that label's
key.  (The claim's all-labels-match criterion is refuted separately.) -/
theorem loadRows_mem_iff (labels : List String) (raw : List Row) (r : Row) :
    r ∈ loadRows labels raw ↔ r ∈ raw ∧ ∀ l ∈ labels, ¬ getCell r l = some l := by
  simp only [loadRows, List.mem_filter, List.all_eq_true, Bool.not_eq_true',
    beq_eq_false_iff_ne, ne_eq]
  constructor
  · rintro ⟨h1, h2⟩
    exact ⟨h1, fun l hl he => h2 l hl he.symm⟩
  · rintro ⟨h1, h2⟩
    exact ⟨h1, fun l hl he => h2 l hl he.symm⟩

/-- C1 (counterexample): with labels ["name","dept"], the raw row
{name:"name", dept:"Sales"} matches its stored value on only one label,
yet `loadRows` excludes it — refuting the claim that a row is excluded
only when every label matches and that a partially matching row is kept. -/
theorem loadRows_partial_match_excluded :
    loadRows ["name", "dept"] [[("name", "name"), ("dept", "Sales")]] = [] ∧
    ¬ getCell [("name", "name"), ("dept", "Sales")] "dept" = some "dept" := by
  decide

/-- C2 (code_bug evidence): when the sort control's value matches no
registered option label, the `filteredRows` getter does not fall back to
the unsorted rows — `find` returns `undefined` and the access
`sortFunc.compare` throws a `TypeError`, modelled by the `none` result at
this concrete failing input. -/
theorem filteredRows_missing_sort_label_throws :
    filteredRows c2WebSheet = none := rfl

/-- C3 (amended): only the exact (no-delimiter) column filter handles a
missing column silently — it never throws, and a row lacking the column
simply does not match once a non-"Any" value is selected; the search
filter with a blank search string also passes rows through untouched.
(The throwing cases of the search filter and the delimited filter are
exhibited separately.) -/
theorem missing_column_filter_behaviour (value column cv : String)
    (columns : List String) (rows : List Row) (r : Row) :
    (selectColumnFilterFn value column none rows).isSome = true ∧
    (jsToLower (jsTrim cv) = "" → searchFilterFn cv columns rows = some rows) ∧
    (value ≠ "Any" → getCell r column = none →
      ∀ out, selectColumnFilterFn value column none rows = some out → r ∉ out) := by
  have htotal : ∀ x ∈ rows, selectColumnPred column none value x =
      some (getCell x column == some value) := fun _ _ => rfl
  refine ⟨?_, ?_, ?_⟩
  · unfold selectColumnFilterFn
    split
    · rfl
    · rw [jsFilter_eq_filter _ (fun x => getCell x column == some value) rows htotal]
      rfl
  · intro h
    simp [searchFilterFn, h]
  · intro hv hcell out hout hmem
    unfold selectColumnFilterFn at hout
    rw [if_neg (by simpa using hv)] at hout
    rw [jsFilter_eq_filter _ (fun x => getCell x column == some value) rows htotal] at hout
    obtain rfl := Option.some_inj.mp hout.symm
    have := (List.mem_filter.mp hmem).2
    rw [hcell] at this
    simp at this

/-- C3 (counterexample): a row that lacks the named column makes the
search filter (with a nonempty search string) and the delimited column
filter throw a `TypeError` (modelled by `none`) — refuting the claim that
the built-in filters never raise on a missing column. -/
theorem missing_column_filter_throws :
    searchFilterFn "a" ["name"] [[("dept", "x")]] = none ∧
    selectColumnFilterFn "B" "tags" (some ",") [[("dept", "x")]] = none := by
  decide

/-- C3 (witness). -/
theorem missing_column_filter_behaviour_witness :
    (selectColumnFilterFn "B" "dept" none [[("x", "y")]]).isSome = true ∧
    searchFilterFn "  " ["name"] [[("x", "y")]] = some [[("x", "y")]] ∧
    [("x", "y")] ∉ ([] : List Row) :=
  have h := missing_column_filter_behaviour "B" "dept" "  " ["name"] [[("x", "y")]] [("x", "y")]
  ⟨h.1, h.2.1 (by decide), h.2.2 (by decide) (by decide) [] (by decide)⟩

/-- C4 (amended): construction validates the required options sheet,
template, query and labels, in that order, each with its own descriptive
error, and succeeds — with empty filter and input lists — whenever those
four are present; the `output` option is NOT validated at construction
(shown separately). -/
theorem constructor_required_fields (o : WebSheetOptions) :
    (o.sheet = none → webSheetConstructor o =
      .error "WebSheet: Provide a Google Sheet URL") ∧
    (o.sheet ≠ none → o.template = none → webSheetConstructor o =
      .error "WebSheet: Provide a Handlebars template") ∧
    (o.sheet ≠ none → o.template ≠ none → o.query = none → webSheetConstructor o =
      .error "WebSheet: Provide a query") ∧
    (o.sheet ≠ none → o.template ≠ none → o.query ≠ none → o.labels = none →
      webSheetConstructor o =
        .error "WebSheet: Provide a list of labels for your selected rows") ∧
    (o.sheet ≠ none → o.template ≠ none → o.query ≠ none → o.labels ≠ none →
      ∃ ws, webSheetConstructor o = .ok ws ∧ ws.filters = [] ∧ ws.inputs = [] ∧
        ws.options = o) := by
  refine ⟨?_, ?_, ?_, ?_, ?_⟩ <;>
    · intros
      simp_all [webSheetConstructor, Option.isNone_iff_eq_none]

/-- C4 (counterexample): an options object carrying sheet, template, query
and labels but MISSING the (claimed-required) output still constructs
successfully, refuting the claim that a missing `output` fails
construction. -/
theorem constructor_missing_output_succeeds :
    exceptIsOk (webSheetConstructor
      { sheet := some "https://docs.google.com/spreadsheets/d/1"
        template := some (fun _ => "")
        output := none
        query := some "select A"
        labels := some ["name"]
        errorCallback := none }) = true := rfl

/-- C4 (witness). -/
theorem constructor_required_fields_witness :
    webSheetConstructor { sampleOptions with sheet := none } =
      .error "WebSheet: Provide a Google Sheet URL" ∧
    webSheetConstructor { sampleOptions with template := none } =
      .error "WebSheet: Provide a Handlebars template" ∧
    webSheetConstructor { sampleOptions with query := none } =
      .error "WebSheet: Provide a query" ∧
    webSheetConstructor { sampleOptions with labels := none } =
      .error "WebSheet: Provide a list of labels for your selected rows" ∧
    ∃ ws, webSheetConstructor sampleOptions = .ok ws ∧ ws.filters = [] ∧
      ws.inputs = [] ∧ ws.options = sampleOptions :=
  ⟨(constructor_required_fields _).1 rfl,
   (constructor_required_fields _).2.1 (by simp [sampleOptions]) rfl,
   (constructor_required_fields _).2.2.1 (by simp [sampleOptions])
     (by simp [sampleOptions]) rfl,
   (constructor_required_fields _).2.2.2.1 (by simp [sampleOptions])
     (by simp [sampleOptions]) (by simp [sampleOptions]) rfl,
   (constructor_required_fields _).2.2.2.2 (by simp [sampleOptions])
     (by simp [sampleOptions]) (by simp [sampleOptions]) (by simp [sampleOptions])⟩

/-- C5: registering a value that is not a function throws the
invalid-argument error synchronously, and the instance — in particular its
list of registered filters — is exactly what it was before the call. -/
theorem createFilter_rejects_nonfunction (ws : WebSheet) (v : JSArgValue)
    (h : typeofFunction v = false) :
    (createFilter ws v).1 =
      some "WebSheet(addSearchFilter): Provide a valid HTML text input" ∧
    (createFilter ws v).2 = ws ∧ (createFilter ws v).2.filters = ws.filters := by
  cases v with
  | func f => simp [typeofFunction] at h
  | str s => exact ⟨rfl, rfl, rfl⟩
  | num n => exact ⟨rfl, rfl, rfl⟩
  | nullVal => exact ⟨rfl, rfl, rfl⟩
  | undefinedVal => exact ⟨rfl, rfl, rfl⟩

/-- C5 (witness). -/
theorem createFilter_rejects_nonfunction_witness :
    (createFilter sampleWebSheet .nullVal).1 =
      some "WebSheet(addSearchFilter): Provide a valid HTML text input" ∧
    (createFilter sampleWebSheet .nullVal).2 = sampleWebSheet ∧
    (createFilter sampleWebSheet .nullVal).2.filters = sampleWebSheet.filters :=
  createFilter_rejects_nonfunction sampleWebSheet .nullVal rfl

/-- C6: with no sort select configured, the `filteredRows` getter returns
exactly the left fold of the registered filters over the loaded rows, in
registration order, each filter receiving the previous filter's output;
with no filters registered it returns the loaded rows themselves. -/
theorem filteredRows_is_left_fold (ws : WebSheet) (h : ws.sorting = none) :
    filteredRows ws = some (ws.filters.foldl (fun acc f => f acc) ws.rows) ∧
    (ws.filters = [] → filteredRows ws = some ws.rows) := by
  have he := runFilters_eq_foldl ws.filters ws.rows
  refine ⟨?_, ?_⟩
  · simp [filteredRows, h, he]
  · intro hf
    simp [filteredRows, h, hf, runFilters]

/-- C6 (witness). -/
theorem filteredRows_is_left_fold_witness :
    filteredRows c6WebSheet =
      some (c6WebSheet.filters.foldl (fun acc f => f acc) c6WebSheet.rows) ∧
    (c6WebSheet.filters = [] → filteredRows c6WebSheet = some c6WebSheet.rows) :=
  filteredRows_is_left_fold c6WebSheet rfl

/-- C7: the filter installed by `selectColumnFilter` passes all rows
unchanged when the control shows the sentinel "Any"; otherwise, with no
delimiter it keeps exactly the rows whose cell equals the control's value
by exact case-sensitive string equality, and with a delimiter it keeps
exactly the rows some trimmed split segment of whose cell equals the
control's value (stated for rows that carry the column, since a missing
cell makes the delimited branch throw, see the missing-column results). -/
theorem selectColumnFilter_semantics (value column sep : String)
    (sepOpt : Option String) (rows : List Row) :
    selectColumnFilterFn "Any" column sepOpt rows = some rows ∧
    (value ≠ "Any" →
      selectColumnFilterFn value column none rows =
        some (rows.filter (fun r => getCell r column == some value))) ∧
    (value ≠ "Any" → (∀ r ∈ rows, (getCell r column).isSome) →
      ∃ out, selectColumnFilterFn value column (some sep) rows = some out ∧
        List.Sublist out rows ∧
        ∀ r, r ∈ out ↔ r ∈ rows ∧ ∃ cell, getCell r column = some cell ∧
          ∃ seg ∈ jsSplit cell sep, jsTrim seg = value) := by
  refine ⟨?_, ?_, ?_⟩
  · simp [selectColumnFilterFn]
  · intro hv
    unfold selectColumnFilterFn
    rw [if_neg (by simpa using hv)]
    exact jsFilter_eq_filter _ _ rows (fun _ _ => rfl)
  · intro hv hcells
    unfold selectColumnFilterFn
    rw [if_neg (by simpa using hv)]
    set q : Row → Bool := fun r =>
      ((getCell r column).map
        (fun cell => (jsSplit cell sep).any (fun v => jsTrim v == value))).getD false
      with hq
    have hp : ∀ r ∈ rows, selectColumnPred column (some sep) value r = some (q r) := by
      intro r hr
      obtain ⟨cell, hc⟩ := Option.isSome_iff_exists.mp (hcells r hr)
      simp [selectColumnPred, hc, hq]
    rw [jsFilter_eq_filter _ q rows hp]
    refine ⟨rows.filter q, rfl, List.filter_sublist rows, fun r => ?_⟩
    rw [List.mem_filter]
    constructor
    · rintro ⟨hr, hqr⟩
      refine ⟨hr, ?_⟩
      rcases hgc : getCell r column with _ | cell
      · rw [hq] at hqr
        simp [hgc] at hqr
      · rw [hq] at hqr
        simp only [hgc, Option.map_some', Option.getD_some] at hqr
        obtain ⟨seg, hseg, hv'⟩ := List.any_eq_true.mp hqr
        exact ⟨cell, rfl, seg, hseg, by simpa using hv'⟩
    · rintro ⟨hr, cell, hc, seg, hseg, hv'⟩
      refine ⟨hr, ?_⟩
      rw [hq]
      simp only [hc, Option.map_some', Option.getD_some, List.any_eq_true]
      exact ⟨seg, hseg, by simp [hv']⟩

/-- C7 (witness): with column value "A, B" and delimiter ",", the selected
value "B" keeps the row; the sentinel "Any" keeps everything. -/
theorem selectColumnFilter_semantics_witness :
    selectColumnFilterFn "Any" "tags" (some ",") [[("tags", "A, B")], [("tags", "C")]] =
      some [[("tags", "A, B")], [("tags", "C")]] ∧
    selectColumnFilterFn "B" "tags" none [[("tags", "A, B")], [("tags", "C")]] =
      some ([[("tags", "A, B")], [("tags", "C")]].filter
        (fun r => getCell r "tags" == some "B")) ∧
    (∃ out, selectColumnFilterFn "B" "tags" (some ",")
        [[("tags", "A, B")], [("tags", "C")]] = some out ∧
      List.Sublist out [[("tags", "A, B")], [("tags", "C")]] ∧
      ∀ r, r ∈ out ↔ r ∈ [[("tags", "A, B")], [("tags", "C")]] ∧
        ∃ cell, getCell r "tags" = some cell ∧
          ∃ seg ∈ jsSplit cell ",", jsTrim seg = "B") ∧
    selectColumnFilterFn "B" "tags" (some ",") [[("tags", "A, B")], [("tags", "C")]] =
      some [[("tags", "A, B")]] :=
  have h := selectColumnFilter_semantics "B" "tags" ","
    (some ",") [[("tags", "A, B")], [("tags", "C")]]
  ⟨h.1, h.2.1 (by decide), h.2.2 (by decide) (by decide), by decide⟩

/-- C8: when the sort control's value matches a registered option's label,
`filteredRows` returns the filtered rows sorted by that option's
comparator: the result is a permutation of the filtered sequence (same
rows), and the sort is stable — two rows the comparator ranks equal keep
their relative input order. -/
theorem filteredRows_sort_stable (ws : WebSheet) (s : Sorting) (opt : SortOption)
    (hs : ws.sorting = some s)
    (hf : s.options.find? (fun v => v.label == s.element.value) = some opt) :
    filteredRows ws = some (jsSortBy opt.compare (runFilters ws.filters ws.rows)) ∧
    List.Perm (jsSortBy opt.compare (runFilters ws.filters ws.rows))
      (runFilters ws.filters ws.rows) ∧
    ∀ a b, opt.compare a b = 0 →
      List.Sublist [a, b] (runFilters ws.filters ws.rows) →
      List.Sublist [a, b] (jsSortBy opt.compare (runFilters ws.filters ws.rows)) := by
  refine ⟨?_, ?_, ?_⟩
  · simp [filteredRows, hs, hf]
  · exact List.perm_insertionSort _ _
  · intro a b hab hsub
    exact List.pair_sublist_insertionSort (le_of_eq hab) hsub

/-- C8 (witness). -/
theorem filteredRows_sort_stable_witness :
    filteredRows c8WebSheet =
      some (jsSortBy demoSortOption.compare
        (runFilters c8WebSheet.filters c8WebSheet.rows)) ∧
    List.Perm (jsSortBy demoSortOption.compare
        (runFilters c8WebSheet.filters c8WebSheet.rows))
      (runFilters c8WebSheet.filters c8WebSheet.rows) ∧
    ∀ a b, demoSortOption.compare a b = 0 →
      List.Sublist [a, b] (runFilters c8WebSheet.filters c8WebSheet.rows) →
      List.Sublist [a, b] (jsSortBy demoSortOption.compare
        (runFilters c8WebSheet.filters c8WebSheet.rows)) :=
  filteredRows_sort_stable c8WebSheet
    { element := { value := "Name", options := ["Name"] }
      options := [demoSortOption] } demoSortOption rfl rfl

/-- C9: rebuilding a bound input's option list yields exactly the sentinel
"Any" followed by the distinct derived column values (whole cell without a
delimiter, every trimmed split segment with one) sorted in default
lexicographic string order; the selection captured before the rebuild
(taken as "Any" when the control had zero options) is restored when still
present among the new options and falls back to "Any" otherwise.  Stated
for rows that carry the column (a missing cell leaves the modelled
fragment, see `collectOptionValues`). -/
theorem populateInput_rebuild (rows : List Row) (inp : WebSheetInput)
    (h : ∀ r ∈ rows, (getCell r inp.column).isSome) :
    ∃ el, populateInput rows inp = some el ∧
      (∃ tail, el.options = "Any" :: tail ∧
        tail.Sorted jsStrLe ∧ tail.Nodup ∧
        (∀ x, x ∈ tail ↔ ∃ r ∈ rows, ∃ cell, getCell r inp.column = some cell ∧
          x ∈ specDerivedValues inp.deliminator cell)) ∧
      el.value =
        (let backup := if inp.element.options.length = 0 then "Any"
                       else inp.element.value
         if backup ∈ el.options then backup else "Any") := by
  obtain ⟨vals, hv, hnd, hmem⟩ :=
    collectOptionValues_spec inp.column inp.deliminator rows [] h
  have hpop : populateInput rows inp = some
      { value := if (if inp.element.options.length = 0 then "Any"
                     else inp.element.value) ∈
            ("Any" :: List.insertionSort jsStrLe vals)
          then (if inp.element.options.length = 0 then "Any"
                else inp.element.value)
          else "Any"
        options := "Any" :: List.insertionSort jsStrLe vals } := by
    simp only [populateInput, hv]
  refine ⟨_, hpop, ⟨List.insertionSort jsStrLe vals, rfl, ?_, ?_, ?_⟩, rfl⟩
  · exact List.sorted_insertionSort jsStrLe vals
  · exact ((List.perm_insertionSort jsStrLe vals).nodup_iff).mpr (hnd List.nodup_nil)
  · intro x
    rw [List.mem_insertionSort, hmem x]
    simp

/-- C9 (witness): with column values x, y, x and no delimiter the rebuilt
options are exactly ["Any","x","y"]; a prior selection "y" survives the
rebuild, a prior selection "z" (no longer derivable) resets to "Any". -/
theorem populateInput_rebuild_witness :
    (∀ r ∈ c9Rows, (getCell r c9InputY.column).isSome) ∧
    (∃ el, populateInput c9Rows c9InputY = some el ∧
      (∃ tail, el.options = "Any" :: tail ∧
        tail.Sorted jsStrLe ∧ tail.Nodup ∧
        (∀ x, x ∈ tail ↔ ∃ r ∈ c9Rows, ∃ cell,
          getCell r c9InputY.column = some cell ∧
          x ∈ specDerivedValues c9InputY.deliminator cell)) ∧
      el.value =
        (let backup := if c9InputY.element.options.length = 0 then "Any"
                       else c9InputY.element.value
         if backup ∈ el.options then backup else "Any")) ∧
    populateInput c9Rows c9InputY = some { value := "y", options := ["Any", "x", "y"] } ∧
    populateInput c9Rows c9InputZ = some { value := "Any", options := ["Any", "x", "y"] } :=
  ⟨by decide, populateInput_rebuild c9Rows c9InputY (by decide), by decide, by decide⟩

/-- C10: the prepended "Any" sentinel is not deduplicated against
data-derived values: a row whose cell is exactly "Any" makes the rebuilt
option list contain "Any" twice, so the list is not a set in this case. -/
theorem populateInput_duplicate_sentinel :
    (populateInput [[("col", "Any")]]
        { element := { value := "", options := [] }
          column := "col"
          deliminator := none }).map SelectElement.options =
      some ["Any", "Any"] ∧
    ∃ el, populateInput [[("col", "Any")]]
        { element := { value := "", options := [] }
          column := "col"
          deliminator := none } = some el ∧
      el.options.count "Any" = 2 ∧ ¬ el.options.Nodup := by
  refine ⟨by decide, { value := "Any", options := ["Any", "Any"] }, by decide, by decide, ?_⟩
  decide
